import Mathlib

/-!
Verification development for the cepid.eu dashboard repository.

The file shallowly embeds the state-bearing parts of the client code:

* `DataProcessor` (js: the data-processor module): dataset loading with
  network-first / cache-fallback, the filter predicate, filter application
  and reset, the background refresh, and `getStats`.  The mutable singleton
  is modelled as a state record `DPState`; every stateful method becomes a
  pure function from the old state (plus the outcomes of its external
  calls: network fetch, storage read) to the new state together with the
  list of DOM events it dispatches.
* `SalaryUtils.calculateStats` (js/salary-utils.js): salary numbers are
  modelled as rationals (`ℚ`); JavaScript `null`/`undefined` inputs are
  modelled as `Option.none` and `NaN` is folded into `none` as well (the
  source filters all three out with the same guard).  `Math.floor(len*0.25)`
  and `Math.floor(len*0.75)` are modelled as `len / 4` and `len * 3 / 4`
  (natural division): `0.25` and `0.75` are exact binary floats, so the
  floating multiplication is exact for every realistic length.
* `Router` URL serialization/parsing (js: the router module): JavaScript
  strings are modelled at the byte level (`Str := List Nat`, one entry per
  octet, the UTF-8 layer of `encodeURIComponent` folded into the byte
  view).  `encodeURIComponent`/`decodeURIComponent` and the
  `URLSearchParams` form-encoding are modelled from their platform
  specifications since they are browser builtins.
* `OffersModal.sortOffers` (js: the offers-modal module): the comparator is
  translated directly; `Array.prototype.sort` (required stable by the
  language spec) is modelled as a stable merge sort; `localeCompare(_, 'fr')`
  is a browser builtin and is abstracted as a comparison parameter `lc`.
-/

/-! ## JavaScript value primitives -/

/-- JavaScript `x || d` for a nullable string `x`: the default is taken when
`x` is `null`/`undefined` or the empty string (both falsy). -/
def jsStrOr (v : Option String) (d : String) : String :=
  match v with
  | some s => if s = "" then d else s
  | none => d

/-- JavaScript truthiness of a nullable number: `null`, `undefined` and `0`
are falsy (`NaN`, also falsy, is folded into `none`). -/
def truthyNum (v : Option ℚ) : Option ℚ :=
  match v with
  | some q => if q = 0 then none else some q
  | none => none

/-- JavaScript `list.includes(v)` where `v` may be `undefined`: an
`undefined` field is never a member of a list of strings. -/
def optIncludes (l : List String) (v : Option String) : Bool :=
  match v with
  | some s => l.contains s
  | none => false

/-! ## Data model (from the dataset shape used by the data-processor)

Only the fields the embedded operations read are carried. -/

/-- One job offer record.  `jobFamily` is always present in the dataset;
the other categorical fields and the salary fields are nullable. -/
structure Offer where
  id : Nat
  title : Option String
  company : Option String
  department : Option String
  jobFamily : String
  contractType : Option String
  sector : Option String
  salaryGrossAnnual : Option ℚ
  salaryNetMonthly : Option ℚ
deriving DecidableEq

/-- Model of `data.meta`: only `generatedAt` is consumed by the embedded code
(`meta?.generatedAt`, absent meta folded into `none`). -/
structure Meta where
  generatedAt : Option String
deriving DecidableEq

/-- The aggregated dataset: offer list, department code→name map, meta. -/
structure Dataset where
  offers : List Offer
  departments : List (String × String)
  meta : Meta
deriving DecidableEq

/-- Model of `DataProcessor.filters`.  `dateRange` is declared in the source, is
only ever `null`, and never participates in the predicate; its value type
is irrelevant and modelled as `Unit`. -/
structure Filters where
  jobFamilies : List String
  contractTypes : List String
  departments : List String
  dateRange : Option Unit
deriving DecidableEq

/-- The all-empty filter state (the initial value and the reset value). -/
def emptyFilters : Filters :=
  { jobFamilies := [], contractTypes := [], departments := [], dateRange := none }

/-- A partial filter update, as passed to `applyFilters(newFilters)`:
each absent field (`none`) is left unchanged by the object-spread merge. -/
structure PartialFilters where
  jobFamilies : Option (List String) := none
  contractTypes : Option (List String) := none
  departments : Option (List String) := none
  dateRange : Option (Option Unit) := none
deriving DecidableEq

/-- The spread merge `{ ...this.filters, ...newFilters }`. -/
def mergeFilters (f : Filters) (p : PartialFilters) : Filters :=
  { jobFamilies := p.jobFamilies.getD f.jobFamilies
    contractTypes := p.contractTypes.getD f.contractTypes
    departments := p.departments.getD f.departments
    dateRange := p.dateRange.getD f.dateRange }

/-- Provenance of the loaded dataset (js string values
`'network' | 'cache' | 'none'`). -/
inductive DataSource where
  | network
  | cache
  | noneYet
deriving DecidableEq

/-- The DataProcessor state: the fields of the js singleton that the
embedded operations read or write. -/
structure DPState where
  data : Dataset
  filteredOffers : List Offer
  dataSource : DataSource
  filters : Filters
deriving DecidableEq

/-- Events dispatched on `window` by DataProcessor. -/
inductive DPEvent where
  | dataFiltered (offers : List Offer) (filters : Filters)
  | dataRefreshed (offers : List Offer)
deriving DecidableEq

/-- Is the event a `dataFiltered` (filter-changed) notification? -/
def isDataFiltered : DPEvent → Bool
  | .dataFiltered _ _ => true
  | .dataRefreshed _ => false

/-- Is the event a `dataRefreshed` notification? -/
def isDataRefreshed : DPEvent → Bool
  | .dataFiltered _ _ => false
  | .dataRefreshed _ => true

/-! ## DataProcessor operations -/

/-- The filter predicate body of `applyFilters`: a sequence of early
`return false` guards, one per dimension, each active only when that
dimension's list is non-empty. -/
def offerPasses (fs : Filters) (o : Offer) : Bool :=
  if decide (0 < fs.jobFamilies.length) && !(fs.jobFamilies.contains o.jobFamily) then false
  else if decide (0 < fs.contractTypes.length) && !(optIncludes fs.contractTypes o.contractType) then false
  else if decide (0 < fs.departments.length) && !(optIncludes fs.departments o.department) then false
  else true

/-- Method `DataProcessor.applyFilters(newFilters)`: spread-merge into the current
filter state, refilter `data.offers`, dispatch one `dataFiltered` event. -/
def applyFilters (st : DPState) (nf : PartialFilters) : DPState × List DPEvent :=
  let fs := mergeFilters st.filters nf
  let filtered := st.data.offers.filter (offerPasses fs)
  ({ st with filters := fs, filteredOffers := filtered },
   [DPEvent.dataFiltered filtered fs])

/-- Method `DataProcessor.resetFilters()`: clear every dimension, copy the full
offer list into the filtered view, dispatch one `dataFiltered` event. -/
def resetFilters (st : DPState) : DPState × List DPEvent :=
  ({ st with filters := emptyFilters, filteredOffers := st.data.offers },
   [DPEvent.dataFiltered st.data.offers emptyFilters])

/-- Outcome of one external asynchronous call (`fetchFromNetwork` or
`Storage.loadAggregatedData`): a thrown error, or a value that may be
falsy (`.ok none`) or a dataset (`.ok (some d)`). -/
abbrev FetchResult := Except Unit (Option Dataset)

/-- Method `DataProcessor.loadFromStorage()`: a storage-layer throw is caught and
converted to `null`. -/
def loadFromStorage (r : FetchResult) : Option Dataset :=
  match r with
  | .ok v => v
  | .error _ => none

/-- The error message thrown by `loadData` when no data is available. -/
def noDataMsg : String := "No data available. Please connect to the internet."

/-- Method `DataProcessor.loadData()`, as a function of the environment: the
`navigator.onLine` flag and the outcomes of the network fetch and of the
storage read.  `f0` is the pre-existing `this.filters` value, which
`loadData` never touches.  The body mirrors the source: network first when
online (a throw or a falsy body falls through), then the storage fallback,
then the `No data available` throw. -/
def loadData (online : Bool) (networkRes storageRes : FetchResult)
    (f0 : Filters) : Except String DPState :=
  let fallback : Except String DPState :=
    match loadFromStorage storageRes with
    | some d =>
      .ok { data := d, filteredOffers := d.offers, dataSource := .cache, filters := f0 }
    | none => .error noDataMsg
  if online then
    match networkRes with
    | .ok (some d) =>
      .ok { data := d, filteredOffers := d.offers, dataSource := .network, filters := f0 }
    | _ => fallback
  else fallback

/-- JavaScript lexicographic string comparison `a < b` (code-unit order,
expressed on the character lists). -/
def jsStrLt (a b : String) : Bool := decide (a.data < b.data)

/-- The guard `newVersion && (!cachedVersion || newVersion > cachedVersion)`
on generation timestamps (string comparison; the empty string is falsy). -/
def isNewerVersion (cached newV : Option String) : Bool :=
  match newV with
  | none => false
  | some nv =>
    if nv = "" then false
    else
      match cached with
      | none => true
      | some cv => if cv = "" then true else jsStrLt cv nv

/-- Method `DataProcessor.refreshIfNeeded()`: only acts after a cache-sourced
load; a network throw or falsy body leaves the state unchanged (the error
is logged and swallowed); with a strictly newer generation timestamp it
replaces `data`, copies the full new offer list into `filteredOffers`,
marks the source as network and dispatches one `dataRefreshed` event.
It never assigns `this.filters`. -/
def refreshIfNeeded (st : DPState) (networkRes : FetchResult) : DPState × List DPEvent :=
  if st.dataSource = DataSource.cache then
    match networkRes with
    | .ok (some nd) =>
      if isNewerVersion st.data.meta.generatedAt nd.meta.generatedAt then
        ({ st with data := nd, filteredOffers := nd.offers, dataSource := .network },
         [DPEvent.dataRefreshed nd.offers])
      else (st, [])
    | _ => (st, [])
  else (st, [])

/-! ## SalaryUtils.calculateStats and DataProcessor.getStats -/

/-- Insertion step of an ascending numeric sort. -/
def insertAsc (x : ℚ) : List ℚ → List ℚ
  | [] => [x]
  | y :: ys => if x ≤ y then x :: y :: ys else y :: insertAsc x ys

/-- The call `valid.sort((a, b) => a - b)`: ascending numeric sort.  On a list of
rational values every correct sort returns the same list, so the engine's
algorithm choice is immaterial here. -/
def sortAsc (l : List ℚ) : List ℚ := l.foldr insertAsc []

/-- The statistics record returned by `SalaryUtils.calculateStats`. -/
structure SalaryStats where
  count : Nat
  min : ℚ
  max : ℚ
  median : ℚ
  q1 : ℚ
  q3 : ℚ
  mean : ℚ
deriving DecidableEq

/-- Method `SalaryUtils.calculateStats(salaries)`: drop `null`/`undefined`/`NaN`
entries (all modelled as `none`), return `null` on an empty remainder,
otherwise sort ascending and read off order statistics.  Quartile indexes
`Math.floor(len*0.25)` / `Math.floor(len*0.75)` are the exact natural
divisions `len/4` / `len*3/4` (see the header note). -/
def calculateStats (salaries : List (Option ℚ)) : Option SalaryStats :=
  let valid := salaries.filterMap id
  if valid.length = 0 then none
  else
    let sorted := sortAsc valid
    let len := sorted.length
    some
      { count := len
        min := sorted.getD 0 0
        max := sorted.getD (len - 1) 0
        median :=
          if len % 2 = 0 then (sorted.getD (len / 2 - 1) 0 + sorted.getD (len / 2) 0) / 2
          else sorted.getD (len / 2) 0
        q1 := sorted.getD (len / 4) 0
        q3 := sorted.getD (len * 3 / 4) 0
        mean := (valid.foldl (· + ·) 0) / (len : ℚ) }

/-- Key set of a grouping pass, in first-occurrence order (the insertion
order of the js object keys). -/
def insertKey (ks : List String) (k : String) : List String :=
  if ks.contains k then ks else ks ++ [k]

/-- All group keys produced by one `offers.forEach` grouping pass. -/
def keysOf (offers : List Offer) (key : Offer → String) : List String :=
  offers.foldl (fun ks o => insertKey ks (key o)) []

/-- The offers accumulated under key `k` by a grouping pass. -/
def groupOffers (offers : List Offer) (key : Offer → String) (k : String) : List Offer :=
  offers.filter (fun o => decide (key o = k))

/-- The salary values pushed for key `k`: one per offer of the group whose
`salaryGrossAnnual` is truthy, in offer order. -/
def groupSalaries (offers : List Offer) (key : Offer → String) (k : String) : List ℚ :=
  (groupOffers offers key k).filterMap (fun o => truthyNum o.salaryGrossAnnual)

/-- One group entry after the salary-stats pass replaced `salaries` with
`salaryStats`. -/
structure StatGroup where
  count : Nat
  salaryStats : Option SalaryStats
deriving DecidableEq

/-- A `byDepartment` group entry, which additionally carries the resolved
department name. -/
structure DeptGroup where
  name : String
  count : Nat
  salaryStats : Option SalaryStats
deriving DecidableEq

/-- Build the association list modelling one grouped js object. -/
def mkGroups (offers : List Offer) (key : Offer → String) : List (String × StatGroup) :=
  (keysOf offers key).map fun k =>
    (k, { count := (groupOffers offers key k).length
          salaryStats := calculateStats ((groupSalaries offers key k).map some) })

/-- Grouping key for `byJobFamily`: the raw `o.jobFamily`. -/
def keyJobFamily (o : Offer) : String := o.jobFamily

/-- Grouping key for `byContractType`: `o.contractType || 'Non précisé'`. -/
def keyContractType (o : Offer) : String := jsStrOr o.contractType "Non précisé"

/-- Grouping key for `byDepartment`: `o.department || 'Inconnu'`. -/
def keyDepartment (o : Offer) : String := jsStrOr o.department "Inconnu"

/-- Grouping key for `bySector`: `o.sector || 'Non précisé'`. -/
def keySector (o : Offer) : String := jsStrOr o.sector "Non précisé"

/-- The `getStats()` result record. -/
structure StatsResult where
  total : Nat
  withSalary : Nat
  byJobFamily : List (String × StatGroup)
  byContractType : List (String × StatGroup)
  byDepartment : List (String × DeptGroup)
  bySector : List (String × StatGroup)
deriving DecidableEq

/-- Method `DataProcessor.getStats()`: groups `filteredOffers` by the four
dimensions; `byDepartment` also resolves the display name through
`this.data.departments[dept] || dept`. -/
def getStats (st : DPState) : StatsResult :=
  let offers := st.filteredOffers
  { total := offers.length
    withSalary := (offers.filter (fun o => decide (o.salaryGrossAnnual ≠ none))).length
    byJobFamily := mkGroups offers keyJobFamily
    byContractType := mkGroups offers keyContractType
    byDepartment :=
      (keysOf offers keyDepartment).map fun k =>
        (k, { name := jsStrOr (st.data.departments.lookup k) k
              count := (groupOffers offers keyDepartment k).length
              salaryStats :=
                calculateStats ((groupSalaries offers keyDepartment k).map some) })
    bySector := mkGroups offers keySector }

/-! ## Router: URL serialization and parsing

JavaScript strings are modelled as byte lists (`Str`).  Identifiers keep
the source names (`encodeArrayParam`, `parseArrayParam`, `buildURL`); the
platform builtins (`encodeURIComponent`, `decodeURIComponent`,
`URLSearchParams`) are modelled from their specifications. -/

/-- A JavaScript string, viewed as its byte sequence. -/
abbrev Str := List Nat

/-- Bytes removed by `String.prototype.trim` (ASCII whitespace). -/
def isSpaceByte (b : Nat) : Bool :=
  b = 9 || b = 10 || b = 11 || b = 12 || b = 13 || b = 32

/-- Builtin `String.prototype.trim`. -/
def trimBytes (s : Str) : Str :=
  ((s.dropWhile isSpaceByte).reverse.dropWhile isSpaceByte).reverse

/-- The byte alphabet `encodeURIComponent` leaves unescaped:
`A-Z a-z 0-9 - _ . ! ~ * ' ( )`. -/
def isUriUnreserved (b : Nat) : Bool :=
  (65 ≤ b && b ≤ 90) || (97 ≤ b && b ≤ 122) || (48 ≤ b && b ≤ 57) ||
  b = 45 || b = 95 || b = 46 || b = 33 || b = 126 || b = 42 || b = 39 || b = 40 || b = 41

/-- Code of the uppercase hex digit for a nibble. -/
def hexDigit (n : Nat) : Nat := if n < 10 then 48 + n else 55 + n

/-- Builtin `encodeURIComponent`: keep unreserved bytes, percent-escape the rest. -/
def encodeURIComponent (s : Str) : Str :=
  s.flatMap fun b =>
    if isUriUnreserved b then [b] else [37, hexDigit (b / 16), hexDigit (b % 16)]

/-- Value of a hex digit byte, if it is one. -/
def hexVal (c : Nat) : Option Nat :=
  if 48 ≤ c && c ≤ 57 then some (c - 48)
  else if 65 ≤ c && c ≤ 70 then some (c - 55)
  else if 97 ≤ c && c ≤ 102 then some (c - 87)
  else none

/-- Builtin `decodeURIComponent`: decode `%XX` escapes.  (On malformed input the
browser throws `URIError`; this model copies the `%` through instead — the
difference is invisible on every encoder-produced string.) -/
def decodeURIComponent : Str → Str
  | [] => []
  | 37 :: h :: l :: rest2 =>
    match hexVal h, hexVal l with
    | some hv, some lv => (hv * 16 + lv) :: decodeURIComponent rest2
    | _, _ => 37 :: decodeURIComponent (h :: l :: rest2)
  | 37 :: rest => 37 :: decodeURIComponent rest
  | c :: rest => c :: decodeURIComponent rest
termination_by s => s.length
decreasing_by all_goals (simp <;> omega)

/-- The byte alphabet `application/x-www-form-urlencoded` serialization
leaves unescaped: `A-Z a-z 0-9 * - . _` (space becomes `+`). -/
def isFormUnreserved (b : Nat) : Bool :=
  (65 ≤ b && b ≤ 90) || (97 ≤ b && b ≤ 122) || (48 ≤ b && b ≤ 57) ||
  b = 42 || b = 45 || b = 46 || b = 95

/-- Builtin `URLSearchParams` value serialization (form-urlencoding). -/
def formEncode (s : Str) : Str :=
  s.flatMap fun b =>
    if isFormUnreserved b then [b]
    else if b = 32 then [43]
    else [37, hexDigit (b / 16), hexDigit (b % 16)]

/-- Builtin `URLSearchParams` value parsing: `+` is a space, `%XX` decodes. -/
def formDecode : Str → Str
  | [] => []
  | 37 :: h :: l :: rest2 =>
    match hexVal h, hexVal l with
    | some hv, some lv => (hv * 16 + lv) :: formDecode rest2
    | _, _ => 37 :: formDecode (h :: l :: rest2)
  | 37 :: rest => 37 :: formDecode rest
  | c :: rest => (if c = 43 then 32 else c) :: formDecode rest
termination_by s => s.length
decreasing_by all_goals (simp <;> omega)

/-- Builtin `Array.prototype.join(sep)` on strings. -/
def jsJoin (sep : Nat) : List Str → Str
  | [] => []
  | [p] => p
  | p :: ps => p ++ sep :: jsJoin sep ps

/-- Builtin `String.prototype.split(sep)` for a one-byte separator: never returns
an empty list; the empty string splits to `[""]`. -/
def jsSplit (sep : Nat) : Str → List Str
  | [] => [[]]
  | c :: rest =>
    match jsSplit sep rest with
    | [] => [[]]
    | r :: rs => if c = sep then [] :: r :: rs else (c :: r) :: rs

/-- The fixed parameter name `famille` (bytes of the ASCII text). -/
def kFamille : Str := [102, 97, 109, 105, 108, 108, 101]

/-- The fixed parameter name `contrat`. -/
def kContrat : Str := [99, 111, 110, 116, 114, 97, 116]

/-- The fixed parameter name `dept`. -/
def kDept : Str := [100, 101, 112, 116]

/-- A Router-side filter state: the three dimensions as string arrays. -/
structure RFilters where
  jobFamilies : List Str
  contractTypes : List Str
  departments : List Str
deriving DecidableEq

/-- Function `encodeArrayParam(arr)`: `null` for an empty array, otherwise the
comma-join of the `encodeURIComponent`-encoded values. -/
def encodeArrayParam (arr : List Str) : Option Str :=
  if arr.length = 0 then none
  else some (jsJoin 44 (arr.map encodeURIComponent))

/-- Function `parseArrayParam(value)`: split on commas, trim and percent-decode
each piece, drop falsy (empty) results; `null`/empty input gives `[]`. -/
def parseArrayParam (value : Option Str) : List Str :=
  match value with
  | none => []
  | some s =>
    if s.length = 0 then []
    else ((jsSplit 44 s).map fun v => decodeURIComponent (trimBytes v)).filter
      fun r => decide (r ≠ [])

/-- The `URLSearchParams` built by `buildURL`: `set` is called at most
once per fixed key, in source order, and only for a non-empty dimension
(for which `encodeArrayParam` is never `null`). -/
def buildQueryParams (f : RFilters) : List (Str × Str) :=
  (if 0 < f.jobFamilies.length then
    [(kFamille, jsJoin 44 (f.jobFamilies.map encodeURIComponent))] else []) ++
  (if 0 < f.contractTypes.length then
    [(kContrat, jsJoin 44 (f.contractTypes.map encodeURIComponent))] else []) ++
  (if 0 < f.departments.length then
    [(kDept, jsJoin 44 (f.departments.map encodeURIComponent))] else [])

/-- Builtin `URLSearchParams.prototype.toString`: form-encode each key and value,
join pairs with `&`. -/
def searchParamsToString (ps : List (Str × Str)) : Str :=
  jsJoin 38 (ps.map fun kv => formEncode kv.1 ++ 61 :: formEncode kv.2)

/-- Split one `key=value` segment at the first `=` and decode both sides
(a segment without `=` yields an empty value, as in the platform). -/
def parsePair (seg : Str) : Str × Str :=
  (formDecode (seg.takeWhile fun c => decide (c ≠ 61)),
   formDecode (((seg.dropWhile fun c => decide (c ≠ 61))).drop 1))

/-- Builtin `URLSearchParams` constructor on a query string without its leading
`?`: split on `&`, ignore empty segments, parse each pair. -/
def parseQuery (q : Str) : List (Str × Str) :=
  ((jsSplit 38 q).filter fun seg => decide (seg ≠ [])).map parsePair

/-- Function `Router.buildURL(tab, filters)`, with the resolved
`config.basePath + path` passed in as `fullPath`: append
`'?' + params.toString()` when the query string is non-empty. -/
def buildURL (fullPath : Str) (f : RFilters) : Str :=
  let queryString := searchParamsToString (buildQueryParams f)
  fullPath ++ (if queryString.length = 0 then [] else 63 :: queryString)

/-- The value `window.location.search` of a URL: everything from the first `?` on
(empty when there is none). -/
def urlSearch (url : Str) : Str := url.dropWhile fun c => decide (c ≠ 63)

/-- Strip the leading `?` that `location.search` carries (the
`URLSearchParams` constructor ignores it). -/
def stripLeadingQm (s : Str) : Str :=
  match s with
  | 63 :: rest => rest
  | s => s

/-- The filter-parsing part of `Router.parseCurrentURL`: read the three
fixed parameters from the query string and run `parseArrayParam` on each
(`params.get` returns the first match or `null`). -/
def parseFiltersFromSearch (search : Str) : RFilters :=
  let ps := parseQuery (stripLeadingQm search)
  { jobFamilies := parseArrayParam (ps.lookup kFamille)
    contractTypes := parseArrayParam (ps.lookup kContrat)
    departments := parseArrayParam (ps.lookup kDept) }

/-! ## OffersModal client-side sort -/

/-- The sortable columns (`th.dataset.sort` values). -/
inductive SortColumn where
  | title
  | company
  | department
  | contractType
  | salaryNetMonthly
deriving DecidableEq

/-- Sort direction. -/
inductive SortDir where
  | asc
  | desc
deriving DecidableEq

/-- The direction factor `dir = this.sortDirection === 'asc' ? 1 : -1`. -/
def dirInt : SortDir → Int
  | .asc => 1
  | .desc => -1

/-- A column value: a string or a number (`a[col]`), or null/undefined. -/
def colValue (col : SortColumn) (o : Offer) : Option (String ⊕ ℚ) :=
  match col with
  | .title => o.title.map Sum.inl
  | .company => o.company.map Sum.inl
  | .department => o.department.map Sum.inl
  | .contractType => o.contractType.map Sum.inl
  | .salaryNetMonthly => o.salaryNetMonthly.map Sum.inr

/-- Numeric view of a column value (only reached for the salary column). -/
def valueNum : String ⊕ ℚ → ℚ
  | .inl _ => 0
  | .inr q => q

/-- String view of a column value (only reached for the string columns). -/
def valueStr : String ⊕ ℚ → String
  | .inl s => s
  | .inr _ => ""

/-- The `sortOffers` comparator (a JavaScript number, modelled as `ℚ`
since the salary difference need not be integral), translated clause by
clause: nulls
compare equal to each other and are sent after any non-null (the `1` and
`-1` returns are not multiplied by `dir`); the salary column compares
numerically; the other columns compare the lower-cased strings with
`localeCompare(_, 'fr')`, abstracted as `lc`. -/
def offerCompare (lc : String → String → Int) (col : SortColumn) (dir : Int)
    (a b : Offer) : ℚ :=
  match colValue col a, colValue col b with
  | none, none => 0
  | none, some _ => 1
  | some _, none => -1
  | some va, some vb =>
    if col = SortColumn.salaryNetMonthly then (valueNum va - valueNum vb) * (dir : ℚ)
    else (lc (valueStr va).toLower (valueStr vb).toLower : ℚ) * (dir : ℚ)

/-- The OffersModal UI state touched by sorting. -/
structure ModalState where
  currentOffers : List Offer
  sortColumn : Option SortColumn
  sortDirection : SortDir
deriving DecidableEq

/-- Method `OffersModal.sortOffers()`: no-op without a sort column, otherwise a
stable sort of `currentOffers` under the comparator (`Array.prototype.sort`
is specified stable; modelled by `List.mergeSort`, which is stable). -/
def sortOffers (lc : String → String → Int) (st : ModalState) : ModalState :=
  match st.sortColumn with
  | none => st
  | some col =>
    { st with
      currentOffers :=
        st.currentOffers.mergeSort fun a b =>
          decide (offerCompare lc col (dirInt st.sortDirection) a b ≤ 0) }

/-! ## Helper lemmas and concrete fixtures -/

/-- A placeholder offer builder for concrete scenarios. -/
def mkOffer (i : Nat) (fam : String) (dept : String) : Offer :=
  { id := i, title := none, company := none, department := some dept
    jobFamily := fam, contractType := none, sector := none
    salaryGrossAnnual := none, salaryNetMonthly := none }

/-- Offer 1 of the §8 scenario. -/
def offer1 : Offer := mkOffer 1 "Archiviste" "75"

/-- Offer 2 of the §8 scenario. -/
def offer2 : Offer := mkOffer 2 "Documentaliste" "75"

/-- Offer 3 of the §8 scenario. -/
def offer3 : Offer := mkOffer 3 "Archiviste" "13"

/-- The §8 scenario dataset. -/
def scenarioData : Dataset :=
  { offers := [offer1, offer2, offer3], departments := []
    meta := { generatedAt := some "2024-01-01T00:00:00Z" } }

/-- The §8 scenario state right after a load. -/
def scenarioState : DPState :=
  { data := scenarioData, filteredOffers := scenarioData.offers
    dataSource := DataSource.network, filters := emptyFilters }

theorem offerPasses_of_allEmpty (fs : Filters) (h1 : fs.jobFamilies = [])
    (h2 : fs.contractTypes = []) (h3 : fs.departments = []) (o : Offer) :
    offerPasses fs o = true := by
  simp [offerPasses, h1, h2, h3]

/-! ### C3 -/

/-- C3: with all three dimensions empty — as after `resetFilters()`, or
after an `applyFilters` whose merged state is all-empty — `filteredOffers`
is the full `data.offers` collection. -/
theorem all_empty_filters_full_collection :
    (∀ st : DPState, (resetFilters st).1.filteredOffers = st.data.offers) ∧
    (∀ fs : Filters, fs.jobFamilies = [] → fs.contractTypes = [] → fs.departments = [] →
      ∀ os : List Offer, os.filter (offerPasses fs) = os) ∧
    (∀ (st : DPState) (nf : PartialFilters),
      (mergeFilters st.filters nf).jobFamilies = [] →
      (mergeFilters st.filters nf).contractTypes = [] →
      (mergeFilters st.filters nf).departments = [] →
      (applyFilters st nf).1.filteredOffers = st.data.offers) := by
  refine ⟨fun st => rfl, ?_, ?_⟩
  · intro fs h1 h2 h3 os
    exact List.filter_eq_self.mpr fun o _ => offerPasses_of_allEmpty fs h1 h2 h3 o
  · intro st nf h1 h2 h3
    simp only [applyFilters]
    exact List.filter_eq_self.mpr fun o _ =>
      offerPasses_of_allEmpty (mergeFilters st.filters nf) h1 h2 h3 o

/-- Witness for C3 at the §8 scenario state. -/
theorem all_empty_filters_full_collection_witness :
    (resetFilters scenarioState).1.filteredOffers = scenarioState.data.offers ∧
    emptyFilters.jobFamilies = [] ∧
    [offer2].filter (offerPasses emptyFilters) = [offer2] ∧
    (applyFilters scenarioState {}).1.filteredOffers = scenarioState.data.offers := by
  refine ⟨all_empty_filters_full_collection.1 scenarioState, rfl,
    all_empty_filters_full_collection.2.1 emptyFilters rfl rfl rfl [offer2],
    all_empty_filters_full_collection.2.2 scenarioState {} rfl rfl rfl⟩

/-! ### C9 -/

/-- A user-driven filter operation. -/
inductive FilterOp where
  | applyOp (nf : PartialFilters)
  | resetOp
deriving DecidableEq

/-- State after one filter operation (events discarded). -/
def stepFilterOp (st : DPState) : FilterOp → DPState
  | .applyOp nf => (applyFilters st nf).1
  | .resetOp => (resetFilters st).1

/-- State after a sequence of filter operations. -/
def runFilterOps (st : DPState) (ops : List FilterOp) : DPState :=
  ops.foldl stepFilterOp st

theorem stepFilterOp_data (st : DPState) (op : FilterOp) :
    (stepFilterOp st op).data = st.data ∧ (stepFilterOp st op).dataSource = st.dataSource := by
  cases op <;> simp [stepFilterOp, applyFilters, resetFilters]

/-- C9: no sequence of `applyFilters`/`resetFilters` calls changes the
authoritative dataset `data` (value semantics: the dataset, its offer list
and every record in it are unchanged); these operations only rewrite
`filters` and `filteredOffers`. -/
theorem filter_ops_preserve_data (st : DPState) (ops : List FilterOp) :
    (runFilterOps st ops).data = st.data ∧
    (runFilterOps st ops).dataSource = st.dataSource := by
  induction ops generalizing st with
  | nil => exact ⟨rfl, rfl⟩
  | cons op ops ih =>
    have h := stepFilterOp_data st op
    have h2 := ih (stepFilterOp st op)
    exact ⟨by rw [runFilterOps, List.foldl_cons, ← runFilterOps, h2.1, h.1],
           by rw [runFilterOps, List.foldl_cons, ← runFilterOps, h2.2, h.2]⟩

/-! ### C10 -/

/-- C10: after each state-changing operation — `applyFilters`,
`resetFilters`, or a successful `loadData` — `filteredOffers` is an
order-preserving subsequence (`List.Sublist`) of `data.offers`. -/
theorem filteredOffers_sublist_of_offers :
    (∀ (st : DPState) (nf : PartialFilters),
      ((applyFilters st nf).1.filteredOffers).Sublist ((applyFilters st nf).1.data.offers)) ∧
    (∀ st : DPState,
      ((resetFilters st).1.filteredOffers).Sublist ((resetFilters st).1.data.offers)) ∧
    (∀ (online : Bool) (nr sr : FetchResult) (f0 : Filters) (st1 : DPState),
      loadData online nr sr f0 = Except.ok st1 →
      st1.filteredOffers.Sublist st1.data.offers) := by
  refine ⟨fun st nf => List.filter_sublist _, fun st => List.Sublist.refl _, ?_⟩
  intro online nr sr f0 st1 h
  rcases hs : loadFromStorage sr with _ | d <;> cases online <;>
    rcases nr with e | v <;> (try rcases v with _ | d2) <;>
    simp [loadData, hs] at h <;> (try subst h) <;> exact List.Sublist.refl _

/-- Witness for C10: the `loadData` clause at a concrete offline
cache-hit load, plus the two unconditioned clauses at the scenario state. -/
theorem filteredOffers_sublist_of_offers_witness :
    ((applyFilters scenarioState {}).1.filteredOffers).Sublist
      ((applyFilters scenarioState {}).1.data.offers) ∧
    ((loadData false (Except.error ()) (Except.ok (some scenarioData)) emptyFilters =
        Except.ok { data := scenarioData, filteredOffers := scenarioData.offers
                    dataSource := DataSource.cache, filters := emptyFilters }) ∧
      ({ data := scenarioData, filteredOffers := scenarioData.offers
         dataSource := DataSource.cache,
         filters := emptyFilters : DPState }).filteredOffers.Sublist scenarioData.offers) := by
  refine ⟨filteredOffers_sublist_of_offers.1 scenarioState {}, rfl, ?_⟩
  exact filteredOffers_sublist_of_offers.2.2 false (Except.error ())
    (Except.ok (some scenarioData)) emptyFilters _ rfl

/-! ### C4 -/

/-- C4: `loadData` tries the network first — when online and the fetch
yields data, the result is the network dataset regardless of storage; on a
network failure, a falsy body, or offline, the storage fallback is used
and marked `cache`; a storage throw is caught and treated as no cached
data; and the result is the `No data available` rejection exactly when
neither the network path nor the fallback produced data. -/
theorem loadData_network_first_cache_fallback (f0 : Filters) (nr sr : FetchResult) :
    (∀ d : Dataset, nr = Except.ok (some d) →
      loadData true nr sr f0 = Except.ok
        { data := d, filteredOffers := d.offers
          dataSource := DataSource.network, filters := f0 }) ∧
    (∀ online : Bool,
      (online = false ∨ nr = Except.error () ∨ nr = Except.ok none) →
      ∀ d : Dataset, loadFromStorage sr = some d →
        loadData online nr sr f0 = Except.ok
          { data := d, filteredOffers := d.offers
            dataSource := DataSource.cache, filters := f0 }) ∧
    (loadFromStorage (Except.error ()) = none) ∧
    (∀ online : Bool,
      loadData online nr sr f0 = Except.error noDataMsg ↔
        (¬ (online = true ∧ ∃ d : Dataset, nr = Except.ok (some d)) ∧
         loadFromStorage sr = none)) := by
  refine ⟨?_, ?_, rfl, ?_⟩
  · intro d hd
    subst hd
    simp [loadData]
  · intro online honline d hd
    rcases honline with h | h | h
    · subst h; simp [loadData, hd]
    · subst h; simp [loadData, hd]
    · subst h
      cases online <;> simp [loadData, hd]
  · intro online
    cases online <;>
      rcases nr with e | v <;> (try rcases v with _ | d) <;>
      rcases hs : loadFromStorage sr with _ | d2 <;>
      simp [loadData, hs]

/-- Witness for C4: network success while online; offline cache hit after
a storage read; the error case with a network throw and a storage throw. -/
theorem loadData_network_first_cache_fallback_witness :
    (loadData true (Except.ok (some scenarioData)) (Except.error ()) emptyFilters =
      Except.ok { data := scenarioData, filteredOffers := scenarioData.offers
                  dataSource := DataSource.network, filters := emptyFilters }) ∧
    (loadData false (Except.error ()) (Except.ok (some scenarioData)) emptyFilters =
      Except.ok { data := scenarioData, filteredOffers := scenarioData.offers
                  dataSource := DataSource.cache, filters := emptyFilters }) ∧
    (loadData true (Except.error ()) (Except.error ()) emptyFilters =
      Except.error noDataMsg) := by
  refine ⟨(loadData_network_first_cache_fallback emptyFilters
      (Except.ok (some scenarioData)) (Except.error ())).1 scenarioData rfl,
    (loadData_network_first_cache_fallback emptyFilters
      (Except.error ()) (Except.ok (some scenarioData))).2.1 false (Or.inl rfl)
      scenarioData rfl,
    ((loadData_network_first_cache_fallback emptyFilters
      (Except.error ()) (Except.error ())).2.2.2 true).mpr ⟨?_, rfl⟩⟩
  rintro ⟨-, d, hd⟩
  exact Except.noConfusion hd

/-! ### C1 -/

/-- A committed filter state active while the cache-sourced data is shown. -/
def cexFilters : Filters :=
  { jobFamilies := ["Archiviste"], contractTypes := [], departments := []
    dateRange := none }

/-- Cache-sourced state with a committed non-empty filter. -/
def cexState : DPState :=
  { data := scenarioData, filteredOffers := [offer1, offer3]
    dataSource := DataSource.cache, filters := cexFilters }

/-- A strictly newer dataset arriving from the background refresh. -/
def newerData : Dataset :=
  { offers := [offer2], departments := []
    meta := { generatedAt := some "2024-02-01T00:00:00Z" } }

/-- C1 counterexample: at a concrete cache-sourced state with committed
filters `jobFamilies = ["Archiviste"]` and a strictly newer fetched
dataset, the refresh fires (`data` replaced, one `dataRefreshed` event),
but the filter state is NOT reset to all-empty dimensions — `filters` is
left exactly as it was. -/
theorem refresh_does_not_reset_filters_cex :
    (refreshIfNeeded cexState (Except.ok (some newerData))).1.data = newerData ∧
    (refreshIfNeeded cexState (Except.ok (some newerData))).2 =
      [DPEvent.dataRefreshed newerData.offers] ∧
    (refreshIfNeeded cexState (Except.ok (some newerData))).1.filters = cexFilters ∧
    (refreshIfNeeded cexState (Except.ok (some newerData))).1.filters ≠ emptyFilters := by
  refine ⟨?_, ?_, ?_, ?_⟩ <;> decide

/-- C1 as amended: after a cache-sourced load, when the background refresh
fetches a dataset passing the strictly-newer version check, DataProcessor
replaces `data`, recomputes `filteredOffers` as the full new offer list
(applying no restriction), leaves the committed `filters` object unchanged
(no reset to all-empty dimensions), and emits exactly one `dataRefreshed`
notification and no `dataFiltered` notification. -/
theorem refresh_replaces_data_keeps_filters (st : DPState) (nd : Dataset)
    (hsrc : st.dataSource = DataSource.cache)
    (hnew : isNewerVersion st.data.meta.generatedAt nd.meta.generatedAt = true) :
    (refreshIfNeeded st (Except.ok (some nd))).1 =
      { st with data := nd, filteredOffers := nd.offers
                dataSource := DataSource.network } ∧
    (refreshIfNeeded st (Except.ok (some nd))).1.filters = st.filters ∧
    (refreshIfNeeded st (Except.ok (some nd))).2 = [DPEvent.dataRefreshed nd.offers] ∧
    (refreshIfNeeded st (Except.ok (some nd))).2.countP isDataRefreshed = 1 ∧
    (refreshIfNeeded st (Except.ok (some nd))).2.countP isDataFiltered = 0 ∧
    (∀ cv nv : String, nv ≠ "" → cv.data < nv.data →
      isNewerVersion (some cv) (some nv) = true) := by
  have hr : refreshIfNeeded st (Except.ok (some nd)) =
      ({ st with data := nd, filteredOffers := nd.offers
                 dataSource := DataSource.network },
       [DPEvent.dataRefreshed nd.offers]) := by
    simp [refreshIfNeeded, hsrc, hnew]
  refine ⟨by rw [hr], by rw [hr], by rw [hr], by rw [hr]; rfl, by rw [hr]; rfl, ?_⟩
  intro cv nv hnv hlt
  simp only [isNewerVersion, hnv, if_false]
  by_cases hcv : cv = "" <;> simp [hcv, jsStrLt, hlt]

/-- Witness for C1 (amended) at the concrete cache-sourced state. -/
theorem refresh_replaces_data_keeps_filters_witness :
    (refreshIfNeeded cexState (Except.ok (some newerData))).1 =
      { cexState with data := newerData, filteredOffers := newerData.offers
                      dataSource := DataSource.network } ∧
    (refreshIfNeeded cexState (Except.ok (some newerData))).1.filters =
      cexState.filters := by
  have h := refresh_replaces_data_keeps_filters cexState newerData rfl (by decide)
  exact ⟨h.1, h.2.1⟩

/-! ### C2 -/

theorem dimEmptyOrMem (l : List String) (x : String) :
    ((decide (0 < l.length) && !(l.contains x)) = false) ↔ (l = [] ∨ x ∈ l) := by
  cases l <;> simp <;> tauto

theorem dimEmptyOrOptMem (l : List String) (v : Option String) :
    ((decide (0 < l.length) && !(optIncludes l v)) = false) ↔
      (l = [] ∨ ∃ s, v = some s ∧ s ∈ l) := by
  cases l <;> cases v <;> simp [optIncludes] <;> tauto

theorem offerPasses_iff (fs : Filters) (o : Offer) :
    offerPasses fs o = true ↔
      ((fs.jobFamilies = [] ∨ o.jobFamily ∈ fs.jobFamilies) ∧
       (fs.contractTypes = [] ∨ ∃ s, o.contractType = some s ∧ s ∈ fs.contractTypes) ∧
       (fs.departments = [] ∨ ∃ s, o.department = some s ∧ s ∈ fs.departments)) := by
  have e : offerPasses fs o =
      (!(decide (0 < fs.jobFamilies.length) && !(fs.jobFamilies.contains o.jobFamily)) &&
       (!(decide (0 < fs.contractTypes.length) &&
           !(optIncludes fs.contractTypes o.contractType)) &&
        !(decide (0 < fs.departments.length) &&
           !(optIncludes fs.departments o.department)))) := by
    simp only [offerPasses]
    cases (decide (0 < fs.jobFamilies.length) && !(fs.jobFamilies.contains o.jobFamily)) <;>
      cases (decide (0 < fs.contractTypes.length) &&
        !(optIncludes fs.contractTypes o.contractType)) <;>
      cases (decide (0 < fs.departments.length) &&
        !(optIncludes fs.departments o.department)) <;> rfl
  rw [e]
  simp only [Bool.and_eq_true, Bool.not_eq_true']
  rw [dimEmptyOrMem, dimEmptyOrOptMem, dimEmptyOrOptMem]

/-- C2: membership in `filteredOffers` is exactly: membership in
`data.offers` and, per dimension, either the committed set is empty or
the offer's value belongs to it (disjunctive within a dimension,
conjunctive across dimensions); consequently a non-empty dimension
restricts every surviving offer; and the §8 three-offer scenario filters
to offers 1 and 3 under `jobFamilies = ["Archiviste"]` and narrows to
offer 1 after additionally committing `departments = ["75"]`. -/
theorem filter_semantics_conjunctive_disjunctive :
    (∀ (st : DPState) (nf : PartialFilters) (o : Offer),
      o ∈ (applyFilters st nf).1.filteredOffers ↔
        (o ∈ st.data.offers ∧
         ((mergeFilters st.filters nf).jobFamilies = [] ∨
           o.jobFamily ∈ (mergeFilters st.filters nf).jobFamilies) ∧
         ((mergeFilters st.filters nf).contractTypes = [] ∨
           ∃ s, o.contractType = some s ∧ s ∈ (mergeFilters st.filters nf).contractTypes) ∧
         ((mergeFilters st.filters nf).departments = [] ∨
           ∃ s, o.department = some s ∧ s ∈ (mergeFilters st.filters nf).departments))) ∧
    (∀ (st : DPState) (nf : PartialFilters) (o : Offer),
      (mergeFilters st.filters nf).jobFamilies ≠ [] →
      o ∈ (applyFilters st nf).1.filteredOffers →
      o.jobFamily ∈ (mergeFilters st.filters nf).jobFamilies) ∧
    (∀ (st : DPState) (nf : PartialFilters) (o : Offer),
      (mergeFilters st.filters nf).contractTypes ≠ [] →
      o ∈ (applyFilters st nf).1.filteredOffers →
      ∃ s, o.contractType = some s ∧ s ∈ (mergeFilters st.filters nf).contractTypes) ∧
    (∀ (st : DPState) (nf : PartialFilters) (o : Offer),
      (mergeFilters st.filters nf).departments ≠ [] →
      o ∈ (applyFilters st nf).1.filteredOffers →
      ∃ s, o.department = some s ∧ s ∈ (mergeFilters st.filters nf).departments) ∧
    ((applyFilters scenarioState { jobFamilies := some ["Archiviste"] }).1.filteredOffers
      = [offer1, offer3]) ∧
    ((applyFilters (applyFilters scenarioState
        { jobFamilies := some ["Archiviste"] }).1
        { departments := some ["75"] }).1.filteredOffers = [offer1]) := by
  have hmem : ∀ (st : DPState) (nf : PartialFilters) (o : Offer),
      o ∈ (applyFilters st nf).1.filteredOffers ↔
        (o ∈ st.data.offers ∧ offerPasses (mergeFilters st.filters nf) o = true) := by
    intro st nf o
    simp only [applyFilters, List.mem_filter]
  refine ⟨?_, ?_, ?_, ?_, by decide, by decide⟩
  · intro st nf o
    rw [hmem, offerPasses_iff]
  · intro st nf o hne ho
    rcases ((hmem st nf o).mp ho).2 |> (offerPasses_iff _ o).mp with ⟨h1, -, -⟩
    exact h1.resolve_left hne
  · intro st nf o hne ho
    rcases ((hmem st nf o).mp ho).2 |> (offerPasses_iff _ o).mp with ⟨-, h2, -⟩
    exact h2.resolve_left hne
  · intro st nf o hne ho
    rcases ((hmem st nf o).mp ho).2 |> (offerPasses_iff _ o).mp with ⟨-, -, h3⟩
    exact h3.resolve_left hne

/-- Witness for C2: the restriction clauses applied at the §8 scenario. -/
theorem filter_semantics_conjunctive_disjunctive_witness :
    (offer1 ∈ (applyFilters scenarioState
      { jobFamilies := some ["Archiviste"] }).1.filteredOffers ↔
      (offer1 ∈ scenarioState.data.offers ∧
       ((mergeFilters scenarioState.filters
           { jobFamilies := some ["Archiviste"] }).jobFamilies = [] ∨
         offer1.jobFamily ∈ (mergeFilters scenarioState.filters
           { jobFamilies := some ["Archiviste"] }).jobFamilies) ∧
       ((mergeFilters scenarioState.filters
           { jobFamilies := some ["Archiviste"] }).contractTypes = [] ∨
         ∃ s, offer1.contractType = some s ∧
           s ∈ (mergeFilters scenarioState.filters
             { jobFamilies := some ["Archiviste"] }).contractTypes) ∧
       ((mergeFilters scenarioState.filters
           { jobFamilies := some ["Archiviste"] }).departments = [] ∨
         ∃ s, offer1.department = some s ∧
           s ∈ (mergeFilters scenarioState.filters
             { jobFamilies := some ["Archiviste"] }).departments))) ∧
    offer1.jobFamily ∈ (mergeFilters scenarioState.filters
      { jobFamilies := some ["Archiviste"] }).jobFamilies := by
  refine ⟨filter_semantics_conjunctive_disjunctive.1 scenarioState
    { jobFamilies := some ["Archiviste"] } offer1, ?_⟩
  exact filter_semantics_conjunctive_disjunctive.2.1 scenarioState
    { jobFamilies := some ["Archiviste"] } offer1 (by decide) (by decide)

/-! ### C6 -/

theorem mem_insertKey_self (ks : List String) (k : String) : k ∈ insertKey ks k := by
  unfold insertKey
  split
  · rename_i hc
    simpa using hc
  · simp

theorem mem_insertKey_of_mem (ks : List String) (k x : String) (hx : x ∈ ks) :
    x ∈ insertKey ks k := by
  unfold insertKey
  split <;> simp [hx]

theorem insertKey_nodup (ks : List String) (k : String) (h : ks.Nodup) :
    (insertKey ks k).Nodup := by
  unfold insertKey
  split
  · exact h
  · rename_i hc
    have hk : k ∉ ks := by simpa using hc
    simp [List.nodup_append, h, hk]

theorem keysOf_aux_nodup (key : Offer → String) (l : List Offer) :
    ∀ acc : List String, acc.Nodup →
      (l.foldl (fun ks o => insertKey ks (key o)) acc).Nodup := by
  induction l with
  | nil => intro acc h; exact h
  | cons o os ih =>
    intro acc h
    exact ih (insertKey acc (key o)) (insertKey_nodup acc (key o) h)

theorem keysOf_aux_mem_acc (key : Offer → String) (l : List Offer) :
    ∀ (acc : List String) (x : String), x ∈ acc →
      x ∈ l.foldl (fun ks o => insertKey ks (key o)) acc := by
  induction l with
  | nil => intro acc x h; exact h
  | cons o os ih =>
    intro acc x h
    exact ih (insertKey acc (key o)) x (mem_insertKey_of_mem acc (key o) x h)

theorem keysOf_nodup (offers : List Offer) (key : Offer → String) :
    (keysOf offers key).Nodup :=
  keysOf_aux_nodup key offers [] List.nodup_nil

theorem mem_keysOf_aux (key : Offer → String) (l : List Offer) :
    ∀ (acc : List String), ∀ o ∈ l,
      key o ∈ l.foldl (fun ks o2 => insertKey ks (key o2)) acc := by
  induction l with
  | nil => intro acc o h; cases h
  | cons a os ih =>
    intro acc o ho
    rcases List.mem_cons.mp ho with rfl | h2
    · exact keysOf_aux_mem_acc key os (insertKey acc (key o)) (key o)
        (mem_insertKey_self acc (key o))
    · exact ih (insertKey acc (key a)) o h2

theorem mem_keysOf (offers : List Offer) (key : Offer → String) :
    ∀ o ∈ offers, key o ∈ keysOf offers key :=
  fun o ho => mem_keysOf_aux key offers [] o ho

theorem sum_map_add_nat (ks : List String) (f g : String → Nat) :
    (ks.map fun k => f k + g k).sum = (ks.map f).sum + (ks.map g).sum := by
  induction ks with
  | nil => simp
  | cons a t ih => simp [ih]; omega

theorem sum_map_ite_eq_one (x : String) :
    ∀ ks : List String, ks.Nodup → x ∈ ks →
      (ks.map fun k => if x = k then (1 : Nat) else 0).sum = 1 := by
  intro ks
  induction ks with
  | nil => intro _ h; cases h
  | cons a t ih =>
    intro hnd hx
    rcases List.mem_cons.mp hx with rfl | hx2
    · have hxt : x ∉ t := (List.nodup_cons.mp hnd).1
      have hz : (t.map fun k => if x = k then (1 : Nat) else 0).sum = 0 := by
        refine List.sum_eq_zero ?_
        intro y hy
        rcases List.mem_map.mp hy with ⟨k, hk, rfl⟩
        simp only [ite_eq_right_iff]
        rintro rfl
        exact absurd hk hxt
      simp [hz]
    · have hne : x ≠ a := by
        rintro rfl
        exact absurd hx2 (List.nodup_cons.mp hnd).1
      simp [hne, ih (List.nodup_cons.mp hnd).2 hx2]

theorem countP_partition (key : Offer → String) (offers : List Offer) :
    ∀ ks : List String, ks.Nodup → (∀ o ∈ offers, key o ∈ ks) →
      (ks.map fun k => (offers.filter fun o => decide (key o = k)).length).sum =
        offers.length := by
  induction offers with
  | nil => intro ks _ _; simp
  | cons o os ih =>
    intro ks hnd hcov
    have hstep : ∀ k : String,
        ((o :: os).filter fun o2 => decide (key o2 = k)).length =
          (os.filter fun o2 => decide (key o2 = k)).length +
            (if key o = k then 1 else 0) := by
      intro k
      by_cases h : key o = k <;> simp [List.filter_cons, h]
    have hmapeq : (ks.map fun k =>
        ((o :: os).filter fun o2 => decide (key o2 = k)).length) =
        ks.map fun k => (os.filter fun o2 => decide (key o2 = k)).length +
          (if key o = k then 1 else 0) :=
      List.map_congr_left fun k _ => hstep k
    rw [hmapeq, sum_map_add_nat,
      ih ks hnd (fun o2 h2 => hcov o2 (List.mem_cons.mpr (Or.inr h2))),
      sum_map_ite_eq_one (key o) ks hnd (hcov o (List.mem_cons.mpr (Or.inl rfl)))]
    simp

/-- C6: for every state, in each of the four `getStats()` dimensions the
per-group `count` values sum to `filteredOffers.length` (each offer lands
in exactly one group of a dimension). -/
theorem getStats_group_counts_sum (st : DPState) :
    (((getStats st).byJobFamily.map fun g => g.2.count).sum = st.filteredOffers.length) ∧
    (((getStats st).byContractType.map fun g => g.2.count).sum = st.filteredOffers.length) ∧
    (((getStats st).byDepartment.map fun g => g.2.count).sum = st.filteredOffers.length) ∧
    (((getStats st).bySector.map fun g => g.2.count).sum = st.filteredOffers.length) := by
  refine ⟨?_, ?_, ?_, ?_⟩ <;>
  · first
    | (have h := countP_partition keyJobFamily st.filteredOffers
          (keysOf st.filteredOffers keyJobFamily)
          (keysOf_nodup st.filteredOffers keyJobFamily)
          (mem_keysOf st.filteredOffers keyJobFamily)
       simpa [getStats, mkGroups, groupOffers, List.map_map, Function.comp] using h)
    | (have h := countP_partition keyContractType st.filteredOffers
          (keysOf st.filteredOffers keyContractType)
          (keysOf_nodup st.filteredOffers keyContractType)
          (mem_keysOf st.filteredOffers keyContractType)
       simpa [getStats, mkGroups, groupOffers, List.map_map, Function.comp] using h)
    | (have h := countP_partition keyDepartment st.filteredOffers
          (keysOf st.filteredOffers keyDepartment)
          (keysOf_nodup st.filteredOffers keyDepartment)
          (mem_keysOf st.filteredOffers keyDepartment)
       simpa [getStats, mkGroups, groupOffers, List.map_map, Function.comp] using h)
    | (have h := countP_partition keySector st.filteredOffers
          (keysOf st.filteredOffers keySector)
          (keysOf_nodup st.filteredOffers keySector)
          (mem_keysOf st.filteredOffers keySector)
       simpa [getStats, mkGroups, groupOffers, List.map_map, Function.comp] using h)

/-! ### C7 -/

theorem calculateStats_eq_none_iff (xs : List (Option ℚ)) :
    calculateStats xs = none ↔ xs.filterMap id = [] := by
  simp only [calculateStats]
  split
  · rename_i h
    simp [List.length_eq_zero.mp h]
  · rename_i h
    constructor
    · intro hc
      exact absurd hc (Option.some_ne_none _)
    · intro hc
      exact absurd (by rw [hc]; rfl : (xs.filterMap id).length = 0) h

theorem mem_mkGroups (offers : List Offer) (key : Offer → String) (k : String)
    (g : StatGroup) (h : (k, g) ∈ mkGroups offers key) :
    g = { count := (groupOffers offers key k).length
          salaryStats := calculateStats ((groupSalaries offers key k).map some) } := by
  rcases List.mem_map.mp h with ⟨k2, _, heq⟩
  injection heq with h1 h2
  subst h1
  exact h2.symm

theorem groupSalaries_eq_nil_iff (offers : List Offer) (key : Offer → String)
    (k : String) :
    groupSalaries offers key k = [] ↔
      ∀ o ∈ offers, key o = k → truthyNum o.salaryGrossAnnual = none := by
  unfold groupSalaries groupOffers
  rw [List.filterMap_eq_nil_iff]
  constructor
  · intro h o ho hk
    exact h o (List.mem_filter.mpr ⟨ho, by simp [hk]⟩)
  · intro h o ho
    rcases List.mem_filter.mp ho with ⟨h1, h2⟩
    exact h o h1 (by simpa using h2)

theorem salaryStats_for_group (offers : List Offer) (key : Offer → String)
    (k : String) :
    calculateStats ((groupSalaries offers key k).map some) = none ↔
      ∀ o ∈ offers, key o = k → truthyNum o.salaryGrossAnnual = none := by
  rw [calculateStats_eq_none_iff]
  have : ((groupSalaries offers key k).map some).filterMap id =
      groupSalaries offers key k := by
    simp
  rw [this, groupSalaries_eq_nil_iff]

/-- C7: in every `getStats()` dimension, a group's `salaryStats` is `null`
exactly when the group has no offer with a usable (truthy)
`salaryGrossAnnual`; in particular `calculateStats` of an empty list is
`null`, and with an empty `filteredOffers` every dimension is an empty
group map.  (All embedded functions are total, and means/medians are only
formed under a positive-count guard, so no `NaN` and no thrown error can
arise.) -/
theorem salaryStats_none_iff_no_salaried :
    (∀ (st : DPState) (k : String) (g : StatGroup),
      (k, g) ∈ (getStats st).byJobFamily →
      (g.salaryStats = none ↔
        ∀ o ∈ st.filteredOffers, keyJobFamily o = k →
          truthyNum o.salaryGrossAnnual = none)) ∧
    (∀ (st : DPState) (k : String) (g : StatGroup),
      (k, g) ∈ (getStats st).byContractType →
      (g.salaryStats = none ↔
        ∀ o ∈ st.filteredOffers, keyContractType o = k →
          truthyNum o.salaryGrossAnnual = none)) ∧
    (∀ (st : DPState) (k : String) (g : DeptGroup),
      (k, g) ∈ (getStats st).byDepartment →
      (g.salaryStats = none ↔
        ∀ o ∈ st.filteredOffers, keyDepartment o = k →
          truthyNum o.salaryGrossAnnual = none)) ∧
    (∀ (st : DPState) (k : String) (g : StatGroup),
      (k, g) ∈ (getStats st).bySector →
      (g.salaryStats = none ↔
        ∀ o ∈ st.filteredOffers, keySector o = k →
          truthyNum o.salaryGrossAnnual = none)) ∧
    (calculateStats [] = none) ∧
    (∀ st : DPState, st.filteredOffers = [] →
      (getStats st).byJobFamily = [] ∧ (getStats st).byContractType = [] ∧
      (getStats st).byDepartment = [] ∧ (getStats st).bySector = []) := by
  refine ⟨?_, ?_, ?_, ?_, rfl, ?_⟩
  · intro st k g h
    rw [mem_mkGroups st.filteredOffers keyJobFamily k g h]
    exact salaryStats_for_group st.filteredOffers keyJobFamily k
  · intro st k g h
    rw [mem_mkGroups st.filteredOffers keyContractType k g h]
    exact salaryStats_for_group st.filteredOffers keyContractType k
  · intro st k g h
    rcases List.mem_map.mp h with ⟨k2, _, heq⟩
    injection heq with h1 h2
    subst h1
    rw [← h2]
    exact salaryStats_for_group st.filteredOffers keyDepartment k2
  · intro st k g h
    rw [mem_mkGroups st.filteredOffers keySector k g h]
    exact salaryStats_for_group st.filteredOffers keySector k
  · intro st h
    refine ⟨?_, ?_, ?_, ?_⟩ <;> simp [getStats, mkGroups, keysOf, h]

/-- Witness for C7: the `Archiviste` group of the §8 scenario (two offers,
neither salaried) has `salaryStats = none`. -/
theorem salaryStats_none_iff_no_salaried_witness :
    ({ count := 2, salaryStats := none } : StatGroup).salaryStats = none ↔
      (∀ o ∈ scenarioState.filteredOffers, keyJobFamily o = "Archiviste" →
        truthyNum o.salaryGrossAnnual = none) :=
  salaryStats_none_iff_no_salaried.1 scenarioState "Archiviste"
    { count := 2, salaryStats := none } (by decide)

/-! ### C8 -/

theorem nonneg_of_mul_nonpos_neg {x d : ℚ} (h : x * d ≤ 0) (hd : d < 0) : 0 ≤ x := by
  nlinarith

theorem nonpos_of_mul_nonpos_pos {x d : ℚ} (h : x * d ≤ 0) (hd : 0 < d) : x ≤ 0 := by
  nlinarith

theorem offerCompare_total (lc : String → String → Int)
    (hTot : ∀ x y, lc x y ≤ 0 ∨ lc y x ≤ 0)
    (hSign : ∀ x y, lc x y ≤ 0 ↔ 0 ≤ lc y x)
    (col : SortColumn) (dir : Int) (a b : Offer) :
    offerCompare lc col dir a b ≤ 0 ∨ offerCompare lc col dir b a ≤ 0 := by
  rcases hva : colValue col a with _ | va <;> rcases hvb : colValue col b with _ | vb <;>
    simp only [offerCompare, hva, hvb]
  · exact Or.inl le_rfl
  · right; norm_num
  · left; norm_num
  · by_cases hc : col = SortColumn.salaryNetMonthly
    · simp only [if_pos hc]
      rcases le_or_lt ((valueNum va - valueNum vb) * (dir : ℚ)) 0 with h | h
      · exact Or.inl h
      · right; nlinarith
    · simp only [if_neg hc]
      rcases le_or_lt 0 ((dir : Int) : ℚ) with hd | hd
      · rcases hTot (valueStr va).toLower (valueStr vb).toLower with h | h
        · exact Or.inl (mul_nonpos_iff.mpr (Or.inr ⟨by exact_mod_cast h, hd⟩))
        · exact Or.inr (mul_nonpos_iff.mpr (Or.inr ⟨by exact_mod_cast h, hd⟩))
      · rcases hTot (valueStr va).toLower (valueStr vb).toLower with h | h
        · have h2 : (0 : Int) ≤ lc (valueStr vb).toLower (valueStr va).toLower :=
            (hSign _ _).mp h
          exact Or.inr (mul_nonpos_iff.mpr (Or.inl ⟨by exact_mod_cast h2, le_of_lt hd⟩))
        · have h2 : (0 : Int) ≤ lc (valueStr va).toLower (valueStr vb).toLower :=
            (hSign _ _).mp h
          exact Or.inl (mul_nonpos_iff.mpr (Or.inl ⟨by exact_mod_cast h2, le_of_lt hd⟩))

theorem offerCompare_trans (lc : String → String → Int)
    (hSign : ∀ x y, lc x y ≤ 0 ↔ 0 ≤ lc y x)
    (hTrans : ∀ x y z, lc x y ≤ 0 → lc y z ≤ 0 → lc x z ≤ 0)
    (col : SortColumn) (dir : Int) (a b c : Offer)
    (h1 : offerCompare lc col dir a b ≤ 0) (h2 : offerCompare lc col dir b c ≤ 0) :
    offerCompare lc col dir a c ≤ 0 := by
  have hTransGe : ∀ x y z, 0 ≤ lc x y → 0 ≤ lc y z → 0 ≤ lc x z := by
    intro x y z hxy hyz
    exact (hSign z x).mp (hTrans z y x ((hSign z y).mpr hyz) ((hSign y x).mpr hxy))
  rcases hva : colValue col a with _ | va <;> rcases hvb : colValue col b with _ | vb <;>
    rcases hvc : colValue col c with _ | vc <;>
    simp only [offerCompare, hva, hvb, hvc] at h1 h2 ⊢ <;>
    try linarith
  by_cases hc : col = SortColumn.salaryNetMonthly
  · simp only [if_pos hc] at h1 h2 ⊢
    have key : (valueNum va - valueNum vc) * ((dir : Int) : ℚ) =
        (valueNum va - valueNum vb) * ((dir : Int) : ℚ) +
        (valueNum vb - valueNum vc) * ((dir : Int) : ℚ) := by ring
    linarith
  · simp only [if_neg hc] at h1 h2 ⊢
    rcases lt_trichotomy ((dir : Int) : ℚ) 0 with hd | hd | hd
    · have hA : (0 : Int) ≤ lc (valueStr va).toLower (valueStr vb).toLower := by
        exact_mod_cast nonneg_of_mul_nonpos_neg h1 hd
      have hB : (0 : Int) ≤ lc (valueStr vb).toLower (valueStr vc).toLower := by
        exact_mod_cast nonneg_of_mul_nonpos_neg h2 hd
      have hC : (0 : Int) ≤ lc (valueStr va).toLower (valueStr vc).toLower :=
        hTransGe _ _ _ hA hB
      exact mul_nonpos_iff.mpr (Or.inl ⟨by exact_mod_cast hC, le_of_lt hd⟩)
    · rw [hd]
      simp
    · have hA : lc (valueStr va).toLower (valueStr vb).toLower ≤ 0 := by
        exact_mod_cast nonpos_of_mul_nonpos_pos h1 hd
      have hB : lc (valueStr vb).toLower (valueStr vc).toLower ≤ 0 := by
        exact_mod_cast nonpos_of_mul_nonpos_pos h2 hd
      have hC : lc (valueStr va).toLower (valueStr vc).toLower ≤ 0 :=
        hTrans _ _ _ hA hB
      exact mul_nonpos_iff.mpr (Or.inr ⟨by exact_mod_cast hC, le_of_lt hd⟩)

/-- C8: `OffersModal.sortOffers` is a stable sort — for any locale
comparison `lc` that is a consistent comparator (total, sign-antisymmetric,
transitive), the result is a permutation of `currentOffers`, sorted under
the comparator, and order-preserving on comparator-ties; and the comparator
itself places null/undefined column values last in both directions,
compares the `salaryNetMonthly` column numerically, and compares every
other column as lower-cased strings through `lc`. -/
theorem sortOffers_stable_comparator (lc : String → String → Int)
    (hTot : ∀ x y, lc x y ≤ 0 ∨ lc y x ≤ 0)
    (hSign : ∀ x y, lc x y ≤ 0 ↔ 0 ≤ lc y x)
    (hTrans : ∀ x y z, lc x y ≤ 0 → lc y z ≤ 0 → lc x z ≤ 0)
    (st : ModalState) (col : SortColumn) (hcol : st.sortColumn = some col) :
    ((sortOffers lc st).currentOffers.Perm st.currentOffers) ∧
    ((sortOffers lc st).currentOffers.Pairwise
      (fun a b => offerCompare lc col (dirInt st.sortDirection) a b ≤ 0)) ∧
    (∀ a b : Offer, offerCompare lc col (dirInt st.sortDirection) a b ≤ 0 →
      [a, b].Sublist st.currentOffers →
      [a, b].Sublist (sortOffers lc st).currentOffers) ∧
    (∀ (dir : Int) (a b : Offer), colValue col a = none → colValue col b ≠ none →
      offerCompare lc col dir a b = 1 ∧ offerCompare lc col dir b a = -1) ∧
    (∀ (dir : Int) (a b : Offer) (qa qb : ℚ),
      a.salaryNetMonthly = some qa → b.salaryNetMonthly = some qb →
      offerCompare lc SortColumn.salaryNetMonthly dir a b = (qa - qb) * (dir : ℚ)) ∧
    (∀ (dir : Int) (a b : Offer) (sa sb : String), col ≠ SortColumn.salaryNetMonthly →
      colValue col a = some (Sum.inl sa) → colValue col b = some (Sum.inl sb) →
      offerCompare lc col dir a b = (lc sa.toLower sb.toLower : ℚ) * (dir : ℚ)) := by
  have hsort : (sortOffers lc st).currentOffers =
      st.currentOffers.mergeSort fun a b =>
        decide (offerCompare lc col (dirInt st.sortDirection) a b ≤ 0) := by
    simp [sortOffers, hcol]
  have transB : ∀ a b c : Offer,
      (decide (offerCompare lc col (dirInt st.sortDirection) a b ≤ 0)) = true →
      (decide (offerCompare lc col (dirInt st.sortDirection) b c ≤ 0)) = true →
      (decide (offerCompare lc col (dirInt st.sortDirection) a c ≤ 0)) = true := by
    intro a b c hab hbc
    exact decide_eq_true (offerCompare_trans lc hSign hTrans col (dirInt st.sortDirection) a b c
      (of_decide_eq_true hab) (of_decide_eq_true hbc))
  have totalB : ∀ a b : Offer,
      ((decide (offerCompare lc col (dirInt st.sortDirection) a b ≤ 0)) ||
       (decide (offerCompare lc col (dirInt st.sortDirection) b a ≤ 0))) = true := by
    intro a b
    rcases offerCompare_total lc hTot hSign col (dirInt st.sortDirection) a b with h | h
    · simp [decide_eq_true h]
    · simp [decide_eq_true h]
  refine ⟨?_, ?_, ?_, ?_, ?_, ?_⟩
  · rw [hsort]
    exact List.mergeSort_perm st.currentOffers _
  · rw [hsort]
    have h := List.sorted_mergeSort transB totalB st.currentOffers
    exact h.imp fun hab => of_decide_eq_true hab
  · intro a b hab hsub
    rw [hsort]
    exact List.pair_sublist_mergeSort transB totalB (decide_eq_true hab) hsub
  · intro dir a b ha hb
    rcases hvb : colValue col b with _ | vb
    · exact absurd hvb hb
    · constructor <;> simp [offerCompare, ha, hvb]
  · intro dir a b qa qb ha hb
    simp [offerCompare, colValue, ha, hb, valueNum]
  · intro dir a b sa sb hc ha hb
    simp [offerCompare, ha, hb, valueStr, hc]

/-- Witness for C8: applied at a two-offer modal state sorted on `title`,
with the degenerate (everywhere-equal) locale comparison, which satisfies
all three comparator hypotheses. -/
theorem sortOffers_stable_comparator_witness :
    (((sortOffers (fun _ _ => 0)
        { currentOffers := [offer1, offer2], sortColumn := some SortColumn.title
          sortDirection := SortDir.asc }).currentOffers.Perm [offer1, offer2]) ∧
     ((sortOffers (fun _ _ => 0)
        { currentOffers := [offer1, offer2], sortColumn := some SortColumn.title
          sortDirection := SortDir.asc }).currentOffers.Pairwise
          (fun a b => offerCompare (fun _ _ => 0) SortColumn.title
            (dirInt SortDir.asc) a b ≤ 0))) := by
  have h := sortOffers_stable_comparator (fun _ _ => 0)
    (fun _ _ => Or.inl le_rfl) (fun _ _ => by simp)
    (fun _ _ _ _ _ => le_rfl)
    { currentOffers := [offer1, offer2], sortColumn := some SortColumn.title
      sortDirection := SortDir.asc } SortColumn.title rfl
  exact ⟨h.1, h.2.1⟩

/-! ### C5 -/

theorem hexDigit_facts (n : Nat) (h : n ≤ 15) :
    hexDigit n ≠ 44 ∧ isSpaceByte (hexDigit n) = false ∧ hexDigit n < 256 ∧
    hexDigit n ≠ 38 ∧ hexDigit n ≠ 61 ∧ hexDigit n ≠ 37 ∧ hexDigit n ≠ 43 ∧
    hexDigit n ≠ 63 ∧ hexVal (hexDigit n) = some n := by
  interval_cases n <;> decide

theorem isUriUnreserved_facts (b : Nat) (h : isUriUnreserved b = true) :
    b ≠ 44 ∧ isSpaceByte b = false ∧ b ≠ 37 ∧ b ≠ 63 := by
  refine ⟨?_, ?_, ?_, ?_⟩
  · rintro rfl; simp [isUriUnreserved] at h
  · by_contra hs
    rw [Bool.not_eq_false] at hs
    simp only [isSpaceByte, Bool.or_eq_true, decide_eq_true_eq] at hs
    rcases hs with ((((rfl | rfl) | rfl) | rfl) | rfl) | rfl <;> simp [isUriUnreserved] at h
  · rintro rfl; simp [isUriUnreserved] at h
  · rintro rfl; simp [isUriUnreserved] at h

theorem isFormUnreserved_facts (b : Nat) (h : isFormUnreserved b = true) :
    b ≠ 38 ∧ b ≠ 61 ∧ b ≠ 37 ∧ b ≠ 43 ∧ b ≠ 32 := by
  refine ⟨?_, ?_, ?_, ?_, ?_⟩ <;> (rintro rfl; simp [isFormUnreserved] at h)

theorem decodeURIComponent_cons_ne (c : Nat) (hc : c ≠ 37) (t : Str) :
    decodeURIComponent (c :: t) = c :: decodeURIComponent t := by
  rcases t with _ | ⟨h, t2⟩
  · simp [decodeURIComponent, hc]
  · rcases t2 with _ | ⟨l, t3⟩ <;> simp [decodeURIComponent, hc]

theorem decodeURIComponent_hex (h l hv lv : Nat) (hh : hexVal h = some hv)
    (hl : hexVal l = some lv) (t : Str) :
    decodeURIComponent (37 :: h :: l :: t) = (hv * 16 + lv) :: decodeURIComponent t := by
  simp [decodeURIComponent, hh, hl]

theorem formDecode_cons_ne (c : Nat) (hc : c ≠ 37) (t : Str) :
    formDecode (c :: t) = (if c = 43 then 32 else c) :: formDecode t := by
  rcases t with _ | ⟨h, t2⟩
  · simp [formDecode, hc]
  · rcases t2 with _ | ⟨l, t3⟩ <;> simp [formDecode, hc]

theorem formDecode_hex (h l hv lv : Nat) (hh : hexVal h = some hv)
    (hl : hexVal l = some lv) (t : Str) :
    formDecode (37 :: h :: l :: t) = (hv * 16 + lv) :: formDecode t := by
  simp [formDecode, hh, hl]

theorem decodeURIComponent_encodeURIComponent (s : Str) (hb : ∀ b ∈ s, b < 256) :
    decodeURIComponent (encodeURIComponent s) = s := by
  induction s with
  | nil => simp [encodeURIComponent, decodeURIComponent]
  | cons b t ih =>
    have hb0 : b < 256 := hb b (List.mem_cons.mpr (Or.inl rfl))
    have iht := ih fun x hx => hb x (List.mem_cons.mpr (Or.inr hx))
    rw [encodeURIComponent, List.flatMap_cons, ← encodeURIComponent]
    by_cases h : isUriUnreserved b
    · have hb37 : b ≠ 37 := (isUriUnreserved_facts b h).2.2.1
      rw [if_pos h, List.singleton_append, decodeURIComponent_cons_ne b hb37, iht]
    · have hhi : b / 16 ≤ 15 := by omega
      have hlo : b % 16 ≤ 15 := by omega
      rw [if_neg h, List.cons_append, List.cons_append, List.cons_append,
        List.nil_append,
        decodeURIComponent_hex _ _ _ _ ((hexDigit_facts _ hhi).2.2.2.2.2.2.2.2)
          ((hexDigit_facts _ hlo).2.2.2.2.2.2.2.2), iht]
      have hbm : b / 16 * 16 + b % 16 = b := by omega
      rw [hbm]

theorem formDecode_formEncode (s : Str) (hb : ∀ b ∈ s, b < 256) :
    formDecode (formEncode s) = s := by
  induction s with
  | nil => simp [formEncode, formDecode]
  | cons b t ih =>
    have hb0 : b < 256 := hb b (List.mem_cons.mpr (Or.inl rfl))
    have iht := ih fun x hx => hb x (List.mem_cons.mpr (Or.inr hx))
    rw [formEncode, List.flatMap_cons, ← formEncode]
    by_cases h : isFormUnreserved b
    · have hb37 : b ≠ 37 := (isFormUnreserved_facts b h).2.2.1
      have hb43 : b ≠ 43 := (isFormUnreserved_facts b h).2.2.2.1
      rw [if_pos h, List.singleton_append, formDecode_cons_ne b hb37, if_neg hb43, iht]
    · by_cases h32 : b = 32
      · rw [if_neg h, if_pos h32, List.singleton_append,
          formDecode_cons_ne 43 (by norm_num), if_pos rfl, iht, h32]
      · have hhi : b / 16 ≤ 15 := by omega
        have hlo : b % 16 ≤ 15 := by omega
        rw [if_neg h, if_neg h32, List.cons_append, List.cons_append,
          List.cons_append, List.nil_append,
          formDecode_hex _ _ _ _ ((hexDigit_facts _ hhi).2.2.2.2.2.2.2.2)
            ((hexDigit_facts _ hlo).2.2.2.2.2.2.2.2), iht]
        have hbm : b / 16 * 16 + b % 16 = b := by omega
        rw [hbm]

theorem mem_encodeURIComponent_facts (s : Str) (hb : ∀ b ∈ s, b < 256) :
    ∀ c ∈ encodeURIComponent s, c ≠ 44 ∧ isSpaceByte c = false ∧ c < 256 := by
  intro c hc
  rcases List.mem_flatMap.mp hc with ⟨b, hbs, hcb⟩
  have hb0 : b < 256 := hb b hbs
  by_cases h : isUriUnreserved b
  · rw [if_pos h] at hcb
    rcases List.mem_singleton.mp hcb with rfl
    exact ⟨(isUriUnreserved_facts c h).1, (isUriUnreserved_facts c h).2.1, hb0⟩
  · rw [if_neg h] at hcb
    have hhi : b / 16 ≤ 15 := by omega
    have hlo : b % 16 ≤ 15 := by omega
    simp only [List.mem_cons, List.not_mem_nil, or_false] at hcb
    rcases hcb with rfl | rfl | rfl
    · exact ⟨by norm_num, rfl, by norm_num⟩
    · exact ⟨(hexDigit_facts _ hhi).1, (hexDigit_facts _ hhi).2.1,
        (hexDigit_facts _ hhi).2.2.1⟩
    · exact ⟨(hexDigit_facts _ hlo).1, (hexDigit_facts _ hlo).2.1,
        (hexDigit_facts _ hlo).2.2.1⟩

theorem hexDigit_ne (n : Nat) : hexDigit n ≠ 38 ∧ hexDigit n ≠ 61 := by
  unfold hexDigit
  split <;> omega

theorem mem_formEncode_facts (s : Str) :
    ∀ c ∈ formEncode s, c ≠ 38 ∧ c ≠ 61 := by
  intro c hc
  rcases List.mem_flatMap.mp hc with ⟨b, _, hcb⟩
  by_cases h : isFormUnreserved b
  · rw [if_pos h] at hcb
    rcases List.mem_singleton.mp hcb with rfl
    exact ⟨(isFormUnreserved_facts c h).1, (isFormUnreserved_facts c h).2.1⟩
  · rw [if_neg h] at hcb
    by_cases h32 : b = 32
    · rw [if_pos h32] at hcb
      rcases List.mem_singleton.mp hcb with rfl
      exact ⟨by norm_num, by norm_num⟩
    · rw [if_neg h32] at hcb
      simp only [List.mem_cons, List.not_mem_nil, or_false] at hcb
      rcases hcb with rfl | rfl | rfl
      · exact ⟨by norm_num, by norm_num⟩
      · exact ⟨(hexDigit_ne _).1, (hexDigit_ne _).2⟩
      · exact ⟨(hexDigit_ne _).1, (hexDigit_ne _).2⟩

theorem encodeURIComponent_ne_nil (v : Str) (hv : v ≠ []) :
    encodeURIComponent v ≠ [] := by
  rcases v with _ | ⟨b, t⟩
  · exact absurd rfl hv
  · rw [encodeURIComponent, List.flatMap_cons]
    by_cases h : isUriUnreserved b <;> simp [h]

theorem jsSplit_ne_nil (sep : Nat) (s : Str) : jsSplit sep s ≠ [] := by
  induction s with
  | nil => simp [jsSplit]
  | cons c t ih =>
    rw [jsSplit]
    rcases hj : jsSplit sep t with _ | ⟨r, rs⟩
    · exact absurd hj ih
    · by_cases hc : c = sep <;> simp [hc]

theorem jsSplit_no_sep (sep : Nat) (p : Str) (hp : sep ∉ p) : jsSplit sep p = [p] := by
  induction p with
  | nil => rfl
  | cons c t ih =>
    have hc : c ≠ sep := fun h => hp (h ▸ List.mem_cons.mpr (Or.inl rfl))
    have ht : sep ∉ t := fun h => hp (List.mem_cons.mpr (Or.inr h))
    rw [jsSplit, ih ht]
    simp [hc]

theorem jsSplit_append (sep : Nat) (p s : Str) (hp : sep ∉ p) :
    jsSplit sep (p ++ sep :: s) = p :: jsSplit sep s := by
  induction p with
  | nil =>
    rw [List.nil_append, jsSplit]
    rcases hj : jsSplit sep s with _ | ⟨r, rs⟩
    · exact absurd hj (jsSplit_ne_nil sep s)
    · simp
  | cons c t ih =>
    have hc : c ≠ sep := fun h => hp (h ▸ List.mem_cons.mpr (Or.inl rfl))
    have ht : sep ∉ t := fun h => hp (List.mem_cons.mpr (Or.inr h))
    rw [List.cons_append, jsSplit, ih ht]
    simp [hc]

theorem jsSplit_jsJoin (sep : Nat) (ps : List Str) (hne : ps ≠ [])
    (h : ∀ p ∈ ps, sep ∉ p) : jsSplit sep (jsJoin sep ps) = ps := by
  induction ps with
  | nil => exact absurd rfl hne
  | cons p rest ih =>
    rcases rest with _ | ⟨p2, rest2⟩
    · exact jsSplit_no_sep sep p (h p (List.mem_cons.mpr (Or.inl rfl)))
    · rw [jsJoin, jsSplit_append sep p _ (h p (List.mem_cons.mpr (Or.inl rfl))),
        ih (List.cons_ne_nil p2 rest2) (fun q hq => h q (List.mem_cons.mpr (Or.inr hq)))]
      exact fun hx => (List.cons_ne_nil p2 rest2) hx

theorem takeWhile_ne_append (a : Str) (x : Nat) (ha : ∀ c ∈ a, c ≠ x) (b : Str) :
    (a ++ x :: b).takeWhile (fun c => decide (c ≠ x)) = a ∧
    (a ++ x :: b).dropWhile (fun c => decide (c ≠ x)) = x :: b := by
  induction a with
  | nil => simp [List.takeWhile, List.dropWhile]
  | cons c t ih =>
    have hc : c ≠ x := ha c (List.mem_cons.mpr (Or.inl rfl))
    have iht := ih fun y hy => ha y (List.mem_cons.mpr (Or.inr hy))
    simp only [List.cons_append, List.takeWhile_cons, List.dropWhile_cons,
      decide_eq_true_eq]
    rw [if_pos hc, if_pos hc, iht.1, iht.2]
    exact ⟨rfl, rfl⟩

theorem trimBytes_eq_self (s : Str) (h : ∀ c ∈ s, isSpaceByte c = false) :
    trimBytes s = s := by
  have hdw : ∀ t : Str, (∀ c ∈ t, isSpaceByte c = false) → t.dropWhile isSpaceByte = t := by
    intro t ht
    rcases t with _ | ⟨c, t2⟩
    · rfl
    · rw [List.dropWhile_cons, ht c (List.mem_cons.mpr (Or.inl rfl))]
      simp
  unfold trimBytes
  rw [hdw s h, hdw s.reverse (fun c hc => h c (List.mem_reverse.mp hc)), List.reverse_reverse]

theorem parsePair_good (k v : Str) (hk : ∀ b ∈ k, b < 256) (hv : ∀ b ∈ v, b < 256) :
    parsePair (formEncode k ++ 61 :: formEncode v) = (k, v) := by
  unfold parsePair
  have h61 : ∀ c ∈ formEncode k, c ≠ 61 := fun c hc => (mem_formEncode_facts k c hc).2
  have ht := takeWhile_ne_append (formEncode k) 61 h61 (formEncode v)
  rw [ht.1, ht.2, List.drop_one, List.tail_cons,
    formDecode_formEncode k hk, formDecode_formEncode v hv]

theorem mem_jsJoin (sep : Nat) (ps : List Str) (c : Nat) (hc : c ∈ jsJoin sep ps) :
    c = sep ∨ ∃ p ∈ ps, c ∈ p := by
  induction ps with
  | nil => cases hc
  | cons p rest ih =>
    rcases rest with _ | ⟨p2, rest2⟩
    · exact Or.inr ⟨p, List.mem_cons.mpr (Or.inl rfl), hc⟩
    · have hc2 : c ∈ p ++ sep :: jsJoin sep (p2 :: rest2) := hc
      rcases List.mem_append.mp hc2 with h | h
      · exact Or.inr ⟨p, List.mem_cons.mpr (Or.inl rfl), h⟩
      · rcases List.mem_cons.mp h with rfl | h2
        · exact Or.inl rfl
        · rcases ih h2 with h3 | ⟨q, hq, hcq⟩
          · exact Or.inl h3
          · exact Or.inr ⟨q, List.mem_cons.mpr (Or.inr hq), hcq⟩

theorem jsJoin_ne_nil_of_head (sep : Nat) (p : Str) (ps : List Str) (hp : p ≠ []) :
    jsJoin sep (p :: ps) ≠ [] := by
  rcases ps with _ | ⟨p2, rest⟩
  · exact hp
  · show p ++ sep :: jsJoin sep (p2 :: rest) ≠ []
    simp

theorem parseQuery_searchParamsToString (ps : List (Str × Str)) (hne : ps ≠ [])
    (hb : ∀ kv ∈ ps, (∀ b ∈ kv.1, b < 256) ∧ (∀ b ∈ kv.2, b < 256)) :
    parseQuery (searchParamsToString ps) = ps := by
  unfold parseQuery searchParamsToString
  have hsegs : ∀ seg ∈ ps.map (fun kv => formEncode kv.1 ++ 61 :: formEncode kv.2),
      (38 : Nat) ∉ seg := by
    intro seg hseg
    rcases List.mem_map.mp hseg with ⟨kv, -, rfl⟩
    intro h38
    rcases List.mem_append.mp h38 with h | h
    · exact (mem_formEncode_facts kv.1 38 h).1 rfl
    · rcases List.mem_cons.mp h with h | h
      · exact absurd h (by norm_num)
      · exact (mem_formEncode_facts kv.2 38 h).1 rfl
  rw [jsSplit_jsJoin 38 _ (by simpa using hne) hsegs]
  have hfil : (ps.map (fun kv => formEncode kv.1 ++ 61 :: formEncode kv.2)).filter
      (fun seg => decide (seg ≠ [])) =
      ps.map (fun kv => formEncode kv.1 ++ 61 :: formEncode kv.2) := by
    refine List.filter_eq_self.mpr ?_
    intro seg hseg
    rcases List.mem_map.mp hseg with ⟨kv, -, rfl⟩
    simp
  rw [hfil, List.map_map]
  have hpair : ∀ kv ∈ ps,
      (parsePair ∘ fun kv => formEncode kv.1 ++ 61 :: formEncode kv.2) kv = kv := by
    intro kv hkv
    have h := parsePair_good kv.1 kv.2 (hb kv hkv).1 (hb kv hkv).2
    simpa using h
  rw [List.map_congr_left hpair]
  simp

theorem parseArrayParam_some (arr : List Str) (hne : arr ≠ [])
    (hval : ∀ v ∈ arr, v ≠ [] ∧ ∀ b ∈ v, b < 256) :
    parseArrayParam (some (jsJoin 44 (arr.map encodeURIComponent))) = arr := by
  have hqne : jsJoin 44 (arr.map encodeURIComponent) ≠ [] := by
    rcases arr with _ | ⟨v, rest⟩
    · exact absurd rfl hne
    · rw [List.map_cons]
      exact jsJoin_ne_nil_of_head 44 _ _
        (encodeURIComponent_ne_nil v (hval v (List.mem_cons.mpr (Or.inl rfl))).1)
  have hopen : parseArrayParam (some (jsJoin 44 (arr.map encodeURIComponent))) =
      if (jsJoin 44 (arr.map encodeURIComponent)).length = 0 then []
      else ((jsSplit 44 (jsJoin 44 (arr.map encodeURIComponent))).map
        fun v => decodeURIComponent (trimBytes v)).filter fun r => decide (r ≠ []) := rfl
  rw [hopen, if_neg (fun hz => hqne (List.length_eq_zero.mp hz))]
  have hsplit : jsSplit 44 (jsJoin 44 (arr.map encodeURIComponent)) =
      arr.map encodeURIComponent := by
    refine jsSplit_jsJoin 44 _ (by simpa using hne) ?_
    intro p hp
    rcases List.mem_map.mp hp with ⟨v, hv, rfl⟩
    intro h44
    exact (mem_encodeURIComponent_facts v (hval v hv).2 44 h44).1 rfl
  rw [hsplit, List.map_map]
  have hmap : ∀ v ∈ arr,
      ((fun p => decodeURIComponent (trimBytes p)) ∘ encodeURIComponent) v = v := by
    intro v hv
    simp only [Function.comp_apply]
    rw [trimBytes_eq_self _
        (fun c hc => (mem_encodeURIComponent_facts v (hval v hv).2 c hc).2.1),
      decodeURIComponent_encodeURIComponent v (hval v hv).2]
  rw [List.map_congr_left hmap, List.map_id']
  exact List.filter_eq_self.mpr fun v hv => decide_eq_true ((hval v hv).1)

theorem lookup_buildQueryParams (f : RFilters) :
    ((buildQueryParams f).lookup kFamille =
      (if 0 < f.jobFamilies.length then
        some (jsJoin 44 (f.jobFamilies.map encodeURIComponent)) else none)) ∧
    ((buildQueryParams f).lookup kContrat =
      (if 0 < f.contractTypes.length then
        some (jsJoin 44 (f.contractTypes.map encodeURIComponent)) else none)) ∧
    ((buildQueryParams f).lookup kDept =
      (if 0 < f.departments.length then
        some (jsJoin 44 (f.departments.map encodeURIComponent)) else none)) := by
  have eff : (kFamille == kFamille) = true := by decide
  have efc : (kFamille == kContrat) = false := by decide
  have efd : (kFamille == kDept) = false := by decide
  have ecf : (kContrat == kFamille) = false := by decide
  have ecc : (kContrat == kContrat) = true := by decide
  have ecd : (kContrat == kDept) = false := by decide
  have edf : (kDept == kFamille) = false := by decide
  have edc : (kDept == kContrat) = false := by decide
  have edd : (kDept == kDept) = true := by decide
  unfold buildQueryParams
  by_cases h1 : 0 < f.jobFamilies.length <;> by_cases h2 : 0 < f.contractTypes.length <;>
    by_cases h3 : 0 < f.departments.length <;>
    simp [h1, h2, h3, List.lookup, eff, efc, efd, ecf, ecc, ecd, edf, edc, edd]

theorem jsJoin38_segments_ne_nil (ps : List (Str × Str)) (hne : ps ≠ []) :
    searchParamsToString ps ≠ [] := by
  rcases ps with _ | ⟨kv, rest⟩
  · exact absurd rfl hne
  · unfold searchParamsToString
    rw [List.map_cons]
    refine jsJoin_ne_nil_of_head 38 _ _ ?_
    simp

/-- C5: serializing a Router-side FilterState with `buildURL` (comma-joined
`encodeURIComponent`-encoded values under the fixed `famille`/`contrat`/
`dept` parameters) and parsing the resulting URL's search string back with
the Router's query parsing (`parseArrayParam` per parameter) returns
exactly the original FilterState — so in particular the two are equal as
sets, independently of element order — for every state whose dimension
values are non-empty byte strings, under a path free of `?`. -/
theorem filter_url_roundtrip (fullPath : Str) (f : RFilters)
    (h63 : ∀ c ∈ fullPath, c ≠ 63)
    (hjf : ∀ v ∈ f.jobFamilies, v ≠ [] ∧ ∀ b ∈ v, b < 256)
    (hct : ∀ v ∈ f.contractTypes, v ≠ [] ∧ ∀ b ∈ v, b < 256)
    (hdp : ∀ v ∈ f.departments, v ≠ [] ∧ ∀ b ∈ v, b < 256) :
    parseFiltersFromSearch (urlSearch (buildURL fullPath f)) = f := by
  obtain ⟨jf, ct, dp⟩ := f
  simp only at hjf hct hdp
  by_cases hall : jf = [] ∧ ct = [] ∧ dp = []
  · obtain ⟨rfl, rfl, rfl⟩ := hall
    have hurl : buildURL fullPath ⟨[], [], []⟩ = fullPath := by
      simp [buildURL, buildQueryParams, searchParamsToString, jsJoin]
    rw [hurl]
    have hsearch : urlSearch fullPath = [] := by
      unfold urlSearch
      rw [List.dropWhile_eq_nil_iff]
      intro x hx
      simp [h63 x hx]
    rw [hsearch]
    rfl
  · have hor : jf ≠ [] ∨ ct ≠ [] ∨ dp ≠ [] := by tauto
    have hps_ne : buildQueryParams ⟨jf, ct, dp⟩ ≠ [] := by
      rcases hor with h | h | h <;>
        simp [buildQueryParams, List.length_pos.mpr h, List.append_eq_nil]
    have hjoin : ∀ (arr : List Str), (∀ v ∈ arr, v ≠ [] ∧ ∀ b ∈ v, b < 256) →
        ∀ b ∈ jsJoin 44 (arr.map encodeURIComponent), b < 256 := by
      intro arr ha b hb
      rcases mem_jsJoin 44 _ b hb with rfl | ⟨p, hp, hbp⟩
      · norm_num
      · rcases List.mem_map.mp hp with ⟨v, hv, rfl⟩
        exact (mem_encodeURIComponent_facts v (ha v hv).2 b hbp).2.2
    have hvals : ∀ kv ∈ buildQueryParams ⟨jf, ct, dp⟩,
        (∀ b ∈ kv.1, b < 256) ∧ (∀ b ∈ kv.2, b < 256) := by
      intro kv hkv
      have hsing : ∀ {c : Prop} (inst : Decidable c) (y : Str × Str),
          kv ∈ (if c then [y] else ([] : List (Str × Str))) → kv = y := by
        intro c inst y h
        split at h
        · exact List.mem_singleton.mp h
        · cases h
      simp only [buildQueryParams, List.mem_append] at hkv
      rcases hkv with (hkv | hkv) | hkv
      · rw [hsing _ _ hkv]
        exact ⟨(by decide : ∀ b ∈ kFamille, b < 256), hjoin jf hjf⟩
      · rw [hsing _ _ hkv]
        exact ⟨(by decide : ∀ b ∈ kContrat, b < 256), hjoin ct hct⟩
      · rw [hsing _ _ hkv]
        exact ⟨(by decide : ∀ b ∈ kDept, b < 256), hjoin dp hdp⟩
    have hq := parseQuery_searchParamsToString _ hps_ne hvals
    have hqs_ne : searchParamsToString (buildQueryParams ⟨jf, ct, dp⟩) ≠ [] :=
      jsJoin38_segments_ne_nil _ hps_ne
    have hbuild : buildURL fullPath ⟨jf, ct, dp⟩ =
        fullPath ++ 63 :: searchParamsToString (buildQueryParams ⟨jf, ct, dp⟩) := by
      simp only [buildURL]
      rw [if_neg (fun hz => hqs_ne (List.length_eq_zero.mp hz))]
    have hsearch : urlSearch (buildURL fullPath ⟨jf, ct, dp⟩) =
        63 :: searchParamsToString (buildQueryParams ⟨jf, ct, dp⟩) := by
      rw [hbuild]
      exact (takeWhile_ne_append fullPath 63 h63 _).2
    have hopen : ∀ search : Str, parseFiltersFromSearch search =
        { jobFamilies := parseArrayParam ((parseQuery (stripLeadingQm search)).lookup kFamille)
          contractTypes := parseArrayParam ((parseQuery (stripLeadingQm search)).lookup kContrat)
          departments := parseArrayParam ((parseQuery (stripLeadingQm search)).lookup kDept) } :=
      fun search => rfl
    rw [hsearch, hopen]
    have hstrip : stripLeadingQm
        (63 :: searchParamsToString (buildQueryParams ⟨jf, ct, dp⟩)) =
        searchParamsToString (buildQueryParams ⟨jf, ct, dp⟩) := rfl
    rw [hstrip, hq]
    obtain ⟨hl1, hl2, hl3⟩ := lookup_buildQueryParams ⟨jf, ct, dp⟩
    rw [hl1, hl2, hl3]
    simp only [RFilters.mk.injEq]
    refine ⟨?_, ?_, ?_⟩
    · by_cases hd : jf = []
      · simp [hd, parseArrayParam]
      · rw [if_pos (List.length_pos.mpr hd)]
        exact parseArrayParam_some jf hd hjf
    · by_cases hd : ct = []
      · simp [hd, parseArrayParam]
      · rw [if_pos (List.length_pos.mpr hd)]
        exact parseArrayParam_some ct hd hct
    · by_cases hd : dp = []
      · simp [hd, parseArrayParam]
      · rw [if_pos (List.length_pos.mpr hd)]
        exact parseArrayParam_some dp hd hdp

/-- Witness for C5: a concrete path `/` and one value per dimension
(`A c` — with a space exercising the escaping — `CDI`, `75`). -/
theorem filter_url_roundtrip_witness :
    parseFiltersFromSearch (urlSearch (buildURL [47]
      { jobFamilies := [[65, 32, 99]], contractTypes := [[67, 68, 73]]
        departments := [[55, 53]] })) =
      { jobFamilies := [[65, 32, 99]], contractTypes := [[67, 68, 73]]
        departments := [[55, 53]] } :=
  filter_url_roundtrip [47] _ (by decide) (by decide) (by decide) (by decide)
